import Mathlib

/-!
Verification of the massh repository against its specification.

Part 1: the GUI front-end components present in the repository
(`src/vue/src/components/AppTheme.vue`, the AppColor component, and
`src/vue/src/plugins/vuetify.ts`), embedded as pure state-transition
functions over the observable browser state they touch
(`$vuetify.theme`, `document.body.style.backgroundColor`, `localStorage`).

Part 2: the massh engine (connection manager, executor, scheduler,
result collector).  The engine's Rust sources are not part of the
source tree; its behaviour is modelled from the specification, as the
doc comments of those definitions state.
-/

namespace Massh

/-! ## GUI: AppTheme component (src/vue/src/components/AppTheme.vue) -/

/-- The observable state touched by the AppTheme component:
the Vuetify dark flag (`this.$vuetify.theme.dark`), the body background
color (`document.body.style.backgroundColor`), and the value stored in
`localStorage` under the key `"AppTheme"` (`none` = key absent). -/
structure ThemeState where
  dark : Bool
  backgroundColor : String
  appThemeStorage : Option String
deriving DecidableEq, Repr

/-- Embedding of `toggleAppTheme` from AppTheme.vue:
```
const isDark = !this.$vuetify.theme.dark;
this.$vuetify.theme.dark = isDark;
document.body.style.backgroundColor = isDark ? "#121212" : "#FFFFFF";
const appTheme = isDark ? "dark" : "light";
localStorage.setItem("AppTheme", appTheme);
``` -/
def toggleAppTheme (s : ThemeState) : ThemeState :=
  let isDark := !s.dark
  { dark := isDark
    backgroundColor := if isDark then "#121212" else "#FFFFFF"
    appThemeStorage := some (if isDark then "dark" else "light") }

/-- Embedding of the `mounted` hook of AppTheme.vue:
```
const appTheme = localStorage.getItem("AppTheme");
if (appTheme) {
  const isDark = appTheme === "dark";
  this.$vuetify.theme.dark = isDark;
  document.body.style.backgroundColor = isDark ? "#121212" : "#FFFFFF";
}
```
`getItem` yields `null` when the key is absent; the `if (appTheme)`
truthiness test also rejects the empty string. -/
def appThemeMounted (s : ThemeState) : ThemeState :=
  match s.appThemeStorage with
  | none => s
  | some appTheme =>
    if appTheme = "" then s
    else
      let isDark := appTheme == "dark"
      { s with dark := isDark
               backgroundColor := if isDark then "#121212" else "#FFFFFF" }

/-! ## GUI: AppColor component and the Vuetify plugin configuration -/

/-- The observable state touched by the AppColor component:
the primary colors of the dark and light Vuetify themes and the value
stored in `localStorage` under the key `"AppColor"`. -/
structure ColorState where
  darkPrimary : String
  lightPrimary : String
  appColorStorage : Option String
deriving DecidableEq, Repr

/-- Embedding of the Vuetify plugin configuration
(src/vue/src/plugins/vuetify.ts): both themes start with primary
`"#2196F3"`.  The `localStorage` content at start-up is arbitrary,
so it is a parameter. -/
def vuetifyInit (storage : Option String) : ColorState :=
  { darkPrimary := "#2196F3", lightPrimary := "#2196F3", appColorStorage := storage }

/-- Embedding of `toggleAppColor` from the AppColor component:
```
this.$vuetify.theme.themes.dark.primary = appColor;
this.$vuetify.theme.themes.light.primary = appColor;
localStorage.setItem("AppColor", appColor);
``` -/
def toggleAppColor (appColor : String) (_s : ColorState) : ColorState :=
  { darkPrimary := appColor, lightPrimary := appColor, appColorStorage := some appColor }

/-- Embedding of the `mounted` hook of the AppColor component:
```
const appColor = localStorage.getItem("AppColor");
if (appColor) {
  this.$vuetify.theme.themes.dark.primary = appColor;
  this.$vuetify.theme.themes.light.primary = appColor;
}
``` -/
def appColorMounted (s : ColorState) : ColorState :=
  match s.appColorStorage with
  | none => s
  | some appColor =>
    if appColor = "" then s
    else { s with darkPrimary := appColor, lightPrimary := appColor }

/-! ## Engine data model

The engine proper (the massh Rust library: target/job model, connection
manager, executor, scheduler, result collector) is not part of the source
tree, so the definitions below are modelled from the specification. -/

/-- Modelled from the spec (§3 Data model, missing library source): one of
the ordered authentication methods of a Target — password,
private-key-with-optional-passphrase, or agent-based. -/
inductive AuthMethod
  | password (secret : String)
  | privateKey (path : String) (passphrase : Option String)
  | agent
deriving DecidableEq, Repr

/-- Modelled from the spec (§3 Data model, missing library source): a Target
is a host address, port, username, ordered list of authentication methods,
and an optional per-host timeout override. -/
structure Target where
  addr : String
  port : Nat
  user : String
  authMethods : List AuthMethod
  timeoutOverride : Option Nat
deriving DecidableEq, Repr

/-- Modelled from the spec (§3 Data model, missing library source):
direction of a file transfer. -/
inductive Direction
  | upload
  | download
deriving DecidableEq, Repr

/-- Modelled from the spec (§3 Data model, missing library source): a Job is
either a shell command or a file transfer. -/
inductive Job
  | command (text : String)
  | transfer (direction : Direction) (localPath remotePath : String)
deriving DecidableEq, Repr

/-- Modelled from the spec (§3 Data model, missing library source): the
tagged per-host Outcome variants. -/
inductive Outcome
  | success (exitCode : Nat) (stdout stderr : String)
  | successTransfer (bytesTransferred : Nat)
  | connectFailed (reason : String)
  | authFailed (reason : String)
  | commandFailed (exitCode : Nat) (stdout stderr : String)
  | transferFailed (reason : String)
  | timedOut
  | cancelled
deriving DecidableEq, Repr

/-- Whether an Outcome is a transport-level error (`ConnectFailed`,
`AuthFailed`, or `TransferFailed`), as opposed to a command-level result. -/
def Outcome.isTransportError : Outcome → Bool
  | connectFailed _ => true
  | authFailed _ => true
  | transferFailed _ => true
  | _ => false

/-! ## Engine: Connection Manager -/

/-- Modelled from the spec (§4.1, missing library source): the deterministic
transport-level behaviour of one host: whether the network-level connection
fails (`some reason`), and for each authentication method whether the host
rejects it (`some reason`) or accepts it (`none`). -/
structure Transport where
  connectError : Option String
  authResult : AuthMethod → Option String

/-- Result of the Connection Manager for one Target: a live session
(recording the method that authenticated it), or a failure. -/
inductive ConnectResult
  | session (method : AuthMethod)
  | connectFailed (reason : String)
  | authFailed (reason : String)
deriving DecidableEq, Repr

/-- Modelled from the spec (§4.1, missing library source): try each
configured authentication method in order, stopping at the first success;
when every method has been rejected, fail with the last rejection reason. -/
def tryAuthMethods (tr : Transport) : List AuthMethod → String → ConnectResult
  | [], lastReason => .authFailed lastReason
  | m :: ms, lastReason =>
    match tr.authResult m with
    | none => .session m
    | some reason => tryAuthMethods tr ms reason

/-- Modelled from the spec (§4.1, missing library source): the Connection
Manager attempts the transport-level connection, then authenticates; returns
a live session, or `connectFailed` with the network-level reason, or
`authFailed` with the last rejection reason. -/
def connectionManager (tr : Transport) (t : Target) : ConnectResult :=
  match tr.connectError with
  | some reason => .connectFailed reason
  | none => tryAuthMethods tr t.authMethods "no authentication methods configured"

/-! ## Engine: Executor -/

/-- Modelled from the spec (§4.2, missing library source): the observed
completion of one remote command over an established session: whether the
per-job timeout elapsed before the process finished, and otherwise the
remote exit status and the captured output. -/
structure CommandObservation where
  timeoutElapsed : Bool
  exitCode : Nat
  stdout : String
  stderr : String

/-- Modelled from the spec (§4.2, missing library source): the Executor on a
Command job: `TimedOut` when the per-job timeout elapses first, `Success`
for exit status zero, and `CommandFailed` carrying the exit code and
captured output for a non-zero exit status. -/
def runCommand (obs : CommandObservation) : Outcome :=
  if obs.timeoutElapsed then .timedOut
  else if obs.exitCode = 0 then .success obs.exitCode obs.stdout obs.stderr
  else .commandFailed obs.exitCode obs.stdout obs.stderr

/-- Modelled from the spec (§4.2, missing library source): the observed
behaviour of one file transfer: a permission denial or I/O fault (with its
reason), the byte count actually transferred, and the source size. -/
structure TransferObservation where
  fault : Option String
  bytesTransferred : Nat
  sourceSize : Nat

/-- Modelled from the spec (§4.2, missing library source): the Executor on a
Transfer job: a permission denial or I/O fault yields `TransferFailed` with
its reason; otherwise the transferred byte count is compared with the source
size — equality yields `Success` reporting the bytes transferred, a mismatch
yields `TransferFailed` with a size-mismatch reason. -/
def runTransfer (obs : TransferObservation) : Outcome :=
  match obs.fault with
  | some reason => .transferFailed reason
  | none =>
    if obs.bytesTransferred = obs.sourceSize then .successTransfer obs.bytesTransferred
    else .transferFailed "size mismatch"

/-! ## Engine: Concurrency Limiter / Scheduler and Result Collector -/

/-- Modelled from the spec (§4.4 state machine, missing library source): the
per-host phase. `pending` = queued, not yet admitted; `active` = admitted
and in the connect/authenticate/execute phase; `done o` = terminal with
Outcome `o`. -/
inductive Phase
  | pending
  | active
  | done (o : Outcome)
deriving DecidableEq, Repr

/-- Whether a phase is terminal. -/
def Phase.isDone : Phase → Bool
  | done _ => true
  | _ => false

/-- Whether a host is in the connect/authenticate/execute phase. -/
def Phase.isActive : Phase → Bool
  | active => true
  | _ => false

/-- Modelled from the spec (§4.3–4.4, missing library source): the state of
one run over `n` Targets (identified by index): the per-host phase, and the
completion stream emitted so far by the Result Collector, as a list of
(target index, Outcome) pairs in emission order. -/
structure RunState (n : Nat) where
  phase : Fin n → Phase
  emitted : List (Fin n × Outcome)

/-- Modelled from the spec: a run starts with every Target pending and
nothing emitted. -/
def initState (n : Nat) : RunState n :=
  ⟨fun _ => .pending, []⟩

/-- The instantaneous number of hosts in the connect/authenticate/execute
phase. -/
def countActive {n : Nat} (f : Fin n → Phase) : Nat :=
  (Finset.univ.filter fun i => (f i).isActive = true).card

/-- The instantaneous in-flight host count of a run state. -/
def activeCount {n : Nat} (s : RunState n) : Nat :=
  countActive s.phase

/-- The targets that do not yet have an Outcome, in index order. -/
def withoutOutcome {n : Nat} (s : RunState n) : List (Fin n) :=
  (List.finRange n).filter fun i => !(s.phase i).isDone

/-- Modelled from the spec (§4.4, missing library source): the Outcome a
host is assigned when the global run deadline elapses: `Cancelled` if still
queued and never started, `TimedOut` if started but not finished, and its
own Outcome if already finished. -/
def deadlineOutcome : Phase → Outcome
  | .pending => .cancelled
  | .active => .timedOut
  | .done o => o

/-- Modelled from the spec (§4.4, missing library source): the state after
the global run deadline elapses in aggregate mode: every host not yet done
is assigned its deadline Outcome and that Outcome is emitted. -/
def deadlineState {n : Nat} (s : RunState n) : RunState n :=
  ⟨fun i => .done (deadlineOutcome (s.phase i)),
   s.emitted ++ (withoutOutcome s).map fun i => (i, deadlineOutcome (s.phase i))⟩

/-- Modelled from the spec (§4.3, §4.5, missing library source): one
scheduler step of a run with deterministic per-host outcomes `oracle`,
concurrency limit `C`, and a global deadline enabled iff `dl`:
* `start`: a pending host enters the connect/authenticate/execute phase,
  only when fewer than `C` hosts are in it (any pending host may be chosen,
  covering every interleaving);
* `finish`: an active host completes with its deterministic Outcome, which
  is appended to the completion stream;
* `deadline`: the global run deadline elapses (aggregate mode only). -/
inductive Step {n : Nat} (oracle : Fin n → Outcome) (C : Nat) (dl : Bool) :
    RunState n → RunState n → Prop
  | start (s : RunState n) (i : Fin n)
      (hp : s.phase i = .pending) (hc : activeCount s < C) :
      Step oracle C dl s ⟨Function.update s.phase i .active, s.emitted⟩
  | finish (s : RunState n) (i : Fin n) (ha : s.phase i = .active) :
      Step oracle C dl s
        ⟨Function.update s.phase i (.done (oracle i)), s.emitted ++ [(i, oracle i)]⟩
  | deadline (s : RunState n) (hdl : dl = true) :
      Step oracle C dl s (deadlineState s)

/-- The run states reachable from the initial state by scheduler steps. -/
def Reach {n : Nat} (oracle : Fin n → Outcome) (C : Nat) (dl : Bool)
    (s : RunState n) : Prop :=
  Relation.ReflTransGen (Step oracle C dl) (initState n) s

/-- The Result Collector bookkeeping invariant: the completion stream holds
no duplicate target index, and holds an index exactly when that target's
phase is terminal. -/
def EmittedInv {n : Nat} (s : RunState n) : Prop :=
  (s.emitted.map Prod.fst).Nodup ∧
  ∀ i : Fin n, i ∈ s.emitted.map Prod.fst ↔ (s.phase i).isDone = true

/-- Every emitted Outcome is the oracle's Outcome for its target (holds for
runs in which the deadline never fires). -/
def OracleInv {n : Nat} (oracle : Fin n → Outcome) (s : RunState n) : Prop :=
  ∀ p ∈ s.emitted, p.2 = oracle p.1

/-! ## Concrete demonstration runs (used by witnesses) -/

/-- A deterministic one-host oracle. -/
def demoOracle : Fin 1 → Outcome := fun _ => .timedOut

/-- One-host run after admitting host 0. -/
def demoMid : RunState 1 :=
  ⟨Function.update (initState 1).phase 0 .active, []⟩

/-- One-host run after host 0 finished. -/
def demoFinal : RunState 1 :=
  ⟨Function.update demoMid.phase 0 (.done (demoOracle 0)),
   demoMid.emitted ++ [(0, demoOracle 0)]⟩

/-- A deterministic two-host oracle: host 0 succeeds, host 1 fails
authentication. -/
def demoOracle2 : Fin 2 → Outcome :=
  fun i => if i = 0 then .success 0 "hi\n" "" else .authFailed "denied"

/-- Two-host run after admitting host 0. -/
def dA1 : RunState 2 :=
  ⟨Function.update (initState 2).phase 0 .active, []⟩

/-- Two-host run after admitting hosts 0 and 1. -/
def dA2 : RunState 2 :=
  ⟨Function.update dA1.phase 1 .active, []⟩

/-- Two-host run where host 0 finished first. -/
def dA3 : RunState 2 :=
  ⟨Function.update dA2.phase 0 (.done (demoOracle2 0)),
   dA2.emitted ++ [(0, demoOracle2 0)]⟩

/-- Two-host run completed in the order 0 then 1. -/
def dA4 : RunState 2 :=
  ⟨Function.update dA3.phase 1 (.done (demoOracle2 1)),
   dA3.emitted ++ [(1, demoOracle2 1)]⟩

/-- Two-host run where host 1 finished first. -/
def dB3 : RunState 2 :=
  ⟨Function.update dA2.phase 1 (.done (demoOracle2 1)),
   dA2.emitted ++ [(1, demoOracle2 1)]⟩

/-- Two-host run completed in the order 1 then 0. -/
def dB4 : RunState 2 :=
  ⟨Function.update dB3.phase 0 (.done (demoOracle2 0)),
   dB3.emitted ++ [(0, demoOracle2 0)]⟩

/-- A concrete transport that connects, rejects agent authentication, and
accepts the password `"hunter2"`. -/
def demoTransport : Transport :=
  { connectError := none
    authResult := fun m =>
      match m with
      | .password s => if s = "hunter2" then none else some "wrong password"
      | _ => some "method rejected" }

/-- A concrete target configured to try agent authentication first and a
password second. -/
def demoTarget : Target :=
  ⟨"host1", 22, "root", [.agent, .password "hunter2"], none⟩

/-! ## Theorems about the GUI components -/

/-- C8 counterexample: starting from the state with the dark flag set but a
light background color, applying `toggleAppTheme` twice does not restore the
background color, so `toggleAppTheme` is not an involution on arbitrary
theme states. -/
theorem toggleAppTheme_not_involution :
    (toggleAppTheme (toggleAppTheme ⟨true, "#FFFFFF", none⟩)).backgroundColor
      ≠ (⟨true, "#FFFFFF", none⟩ : ThemeState).backgroundColor := by
  decide

/-- C8 (amended): applying `toggleAppTheme` twice restores the dark flag for
every starting state, and restores the body background color whenever the
starting background color is the canonical color for the starting dark flag
(`#121212` when dark, `#FFFFFF` when light). -/
theorem toggleAppTheme_involution (s : ThemeState) :
    (toggleAppTheme (toggleAppTheme s)).dark = s.dark ∧
    (s.backgroundColor = (if s.dark then "#121212" else "#FFFFFF") →
      (toggleAppTheme (toggleAppTheme s)).backgroundColor = s.backgroundColor) := by
  cases s with
  | mk d bg st =>
    refine ⟨by cases d <;> rfl, fun h => ?_⟩
    cases d <;> simp_all [toggleAppTheme]

/-- Witness for the amended C8 theorem at a concrete consistent state. -/
theorem toggleAppTheme_involution_witness :
    (toggleAppTheme (toggleAppTheme ⟨true, "#121212", none⟩)).dark
      = (⟨true, "#121212", none⟩ : ThemeState).dark ∧
    (toggleAppTheme (toggleAppTheme ⟨true, "#121212", none⟩)).backgroundColor
      = (⟨true, "#121212", none⟩ : ThemeState).backgroundColor :=
  ⟨(toggleAppTheme_involution ⟨true, "#121212", none⟩).1,
   (toggleAppTheme_involution ⟨true, "#121212", none⟩).2 (by decide)⟩

/-- C9: the dark and light primary colors are equal in the initial Vuetify
configuration, `toggleAppColor` sets both to the same value, and the AppColor
`mounted` hook preserves their equality (it sets both to the stored value or
leaves both unchanged). -/
theorem primary_colors_equal_invariant :
    (∀ storage, (vuetifyInit storage).darkPrimary = (vuetifyInit storage).lightPrimary) ∧
    (∀ c s, (toggleAppColor c s).darkPrimary = (toggleAppColor c s).lightPrimary) ∧
    (∀ s : ColorState, s.darkPrimary = s.lightPrimary →
      (appColorMounted s).darkPrimary = (appColorMounted s).lightPrimary) := by
  refine ⟨fun _ => rfl, fun _ _ => rfl, fun s h => ?_⟩
  cases s with
  | mk d l st =>
    cases st with
    | none => simpa [appColorMounted] using h
    | some c => by_cases hc : c = "" <;> simp_all [appColorMounted]

/-- Witness for C9 at a concrete state with a stored color. -/
theorem primary_colors_equal_invariant_witness :
    (appColorMounted ⟨"#2196F3", "#2196F3", some "#E91E63"⟩).darkPrimary =
    (appColorMounted ⟨"#2196F3", "#2196F3", some "#E91E63"⟩).lightPrimary :=
  primary_colors_equal_invariant.2.2 ⟨"#2196F3", "#2196F3", some "#E91E63"⟩ (by decide)

/-- C10: after any `toggleAppTheme`, running the AppTheme `mounted` hook on
any state whose `localStorage` holds what the toggle stored reproduces
exactly the dark flag and background color that the toggle set
(persist-then-restore round-trip). -/
theorem appTheme_persist_restore (s u : ThemeState)
    (h : u.appThemeStorage = (toggleAppTheme s).appThemeStorage) :
    (appThemeMounted u).dark = (toggleAppTheme s).dark ∧
    (appThemeMounted u).backgroundColor = (toggleAppTheme s).backgroundColor := by
  cases s with
  | mk d bg st =>
    cases u with
    | mk d' bg' st' => cases d <;> simp_all [toggleAppTheme, appThemeMounted]

/-- Witness for C10: a toggle from the light state stores `"dark"`; the
`mounted` hook restores the dark flag and background from that stored value. -/
theorem appTheme_persist_restore_witness :
    (appThemeMounted ⟨false, "", some "dark"⟩).dark
      = (toggleAppTheme ⟨false, "#FFFFFF", none⟩).dark ∧
    (appThemeMounted ⟨false, "", some "dark"⟩).backgroundColor
      = (toggleAppTheme ⟨false, "#FFFFFF", none⟩).backgroundColor :=
  appTheme_persist_restore ⟨false, "#FFFFFF", none⟩ ⟨false, "", some "dark"⟩ (by decide)

/-! ## Theorems about the Connection Manager and Executor -/

lemma tryAuthMethods_first_success (tr : Transport) (m : AuthMethod)
    (post : List AuthMethod) (hm : tr.authResult m = none) :
    ∀ (pre : List AuthMethod) (last : String),
      (∀ m' ∈ pre, (tr.authResult m').isSome = true) →
      tryAuthMethods tr (pre ++ m :: post) last = .session m := by
  intro pre
  induction pre with
  | nil => intro last _; simp [tryAuthMethods, hm]
  | cons p ps ih =>
    intro last hpre
    obtain ⟨r, hr⟩ := Option.isSome_iff_exists.mp (hpre p (by simp))
    simp only [List.cons_append, tryAuthMethods, hr]
    exact ih r fun m' hm' => hpre m' (by simp [hm'])

lemma tryAuthMethods_all_rejected (tr : Transport) (m : AuthMethod) (r : String)
    (hm : tr.authResult m = some r) :
    ∀ (pre : List AuthMethod) (last : String),
      (∀ m' ∈ pre, (tr.authResult m').isSome = true) →
      tryAuthMethods tr (pre ++ [m]) last = .authFailed r := by
  intro pre
  induction pre with
  | nil => intro last _; simp [tryAuthMethods, hm]
  | cons p ps ih =>
    intro last hpre
    obtain ⟨r', hr⟩ := Option.isSome_iff_exists.mp (hpre p (by simp))
    simp only [List.cons_append, tryAuthMethods, hr]
    exact ih r' fun m' hm' => hpre m' (by simp [hm'])

/-- C3: the Connection Manager returns `ConnectFailed` with the
transport-level reason when the connection fails; otherwise it tries the
Target's configured authentication methods in their listed order and stops
at the first that succeeds, returning a live session authenticated by that
method; and when every configured method has been tried and rejected it
returns `AuthFailed` carrying the last rejection reason. -/
theorem connectionManager_contract (tr : Transport) (t : Target) :
    (∀ r, tr.connectError = some r → connectionManager tr t = .connectFailed r) ∧
    (tr.connectError = none →
      ∀ pre m post, t.authMethods = pre ++ m :: post →
        (∀ m' ∈ pre, (tr.authResult m').isSome = true) →
        tr.authResult m = none →
        connectionManager tr t = .session m) ∧
    (tr.connectError = none →
      ∀ pre m r, t.authMethods = pre ++ [m] →
        (∀ m' ∈ pre, (tr.authResult m').isSome = true) →
        tr.authResult m = some r →
        connectionManager tr t = .authFailed r) := by
  refine ⟨fun r hr => by simp [connectionManager, hr], ?_, ?_⟩
  · intro hc pre m post hsplit hpre hm
    simp [connectionManager, hc, hsplit,
      tryAuthMethods_first_success tr m post hm pre _ hpre]
  · intro hc pre m r hsplit hpre hm
    simp [connectionManager, hc, hsplit,
      tryAuthMethods_all_rejected tr m r hm pre _ hpre]

/-- Witness for C3 at a concrete transport and target: agent authentication
is rejected, the password succeeds, and the Connection Manager returns a
session authenticated by the password method. -/
theorem connectionManager_contract_witness :
    connectionManager demoTransport demoTarget
      = .session (.password "hunter2") :=
  (connectionManager_contract demoTransport demoTarget).2.1 rfl
    [.agent] (.password "hunter2") [] rfl (by decide) rfl

/-- C5: a Command job whose remote process completes (the per-job timeout
did not elapse) with a non-zero exit status yields `CommandFailed` carrying
that exit code and the captured output, and this Outcome is not a
transport-level error. -/
theorem command_nonzero_exit_commandFailed (obs : CommandObservation)
    (hrun : obs.timeoutElapsed = false) (hnz : obs.exitCode ≠ 0) :
    runCommand obs = .commandFailed obs.exitCode obs.stdout obs.stderr ∧
    (runCommand obs).isTransportError = false := by
  have h1 : runCommand obs = .commandFailed obs.exitCode obs.stdout obs.stderr := by
    simp [runCommand, hrun, hnz]
  exact ⟨h1, by rw [h1]; rfl⟩

/-- Witness for C5 at a concrete command observation with exit status 2. -/
theorem command_nonzero_exit_commandFailed_witness :
    runCommand ⟨false, 2, "", "boom"⟩ = .commandFailed 2 "" "boom" ∧
    (runCommand ⟨false, 2, "", "boom"⟩).isTransportError = false :=
  command_nonzero_exit_commandFailed ⟨false, 2, "", "boom"⟩ rfl (by decide)

/-- C6: the Executor on a Transfer job compares the transferred byte count
with the source size: equality (and no fault) yields `Success` reporting the
bytes transferred; a mismatch yields `TransferFailed` with a reason; a
permission denial or I/O fault yields `TransferFailed` with its reason. -/
theorem transfer_size_verification (obs : TransferObservation) :
    (obs.fault = none → obs.bytesTransferred = obs.sourceSize →
      runTransfer obs = .successTransfer obs.bytesTransferred) ∧
    (obs.fault = none → obs.bytesTransferred ≠ obs.sourceSize →
      ∃ r, runTransfer obs = .transferFailed r) ∧
    (∀ r, obs.fault = some r → runTransfer obs = .transferFailed r) := by
  refine ⟨fun hf he => by simp [runTransfer, hf, he], fun hf hne => ?_,
    fun r hf => by simp [runTransfer, hf]⟩
  exact ⟨"size mismatch", by simp [runTransfer, hf, hne]⟩

/-- Witness for C6 at a concrete fault-free 1024-byte transfer. -/
theorem transfer_size_verification_witness :
    runTransfer ⟨none, 1024, 1024⟩ = .successTransfer 1024 :=
  (transfer_size_verification ⟨none, 1024, 1024⟩).1 rfl rfl

/-! ## Theorems about the Scheduler and Result Collector -/

lemma countActive_update_active {n : Nat} (f : Fin n → Phase) (i : Fin n)
    (h : (f i).isActive = false) :
    countActive (Function.update f i .active) = countActive f + 1 := by
  have hset :
      (Finset.univ.filter fun j => ((Function.update f i Phase.active) j).isActive = true)
        = insert i (Finset.univ.filter fun j => (f j).isActive = true) := by
    ext j
    by_cases hj : j = i
    · subst hj; simp [Function.update_same, Phase.isActive]
    · simp [Function.update_noteq hj, hj]
  unfold countActive
  rw [hset, Finset.card_insert_of_not_mem (by simp [h])]

lemma countActive_update_done {n : Nat} (f : Fin n → Phase) (i : Fin n) (o : Outcome) :
    countActive (Function.update f i (.done o)) ≤ countActive f := by
  apply Finset.card_le_card
  intro j hj
  simp only [Finset.mem_filter, Finset.mem_univ, true_and] at hj ⊢
  by_cases hji : j = i
  · subst hji
    rw [Function.update_same] at hj
    simp [Phase.isActive] at hj
  · rwa [Function.update_noteq hji] at hj

lemma activeCount_deadlineState {n : Nat} (s : RunState n) :
    activeCount (deadlineState s) = 0 := by
  have hempty :
      (Finset.univ.filter fun j : Fin n => ((deadlineState s).phase j).isActive = true) = ∅ :=
    Finset.filter_false_of_mem fun j _ => by simp [deadlineState, Phase.isActive]
  simp [activeCount, countActive, hempty]

lemma activeCount_le_of_step {n : Nat} {oracle : Fin n → Outcome} {C : Nat} {dl : Bool}
    {s s' : RunState n} (h : Step oracle C dl s s') (hle : activeCount s ≤ C) :
    activeCount s' ≤ C := by
  cases h with
  | start i hp hc =>
    have hni : (s.phase i).isActive = false := by rw [hp]; rfl
    show countActive (Function.update s.phase i .active) ≤ C
    rw [countActive_update_active s.phase i hni]
    have hc' : countActive s.phase < C := hc
    omega
  | finish i ha =>
    exact le_trans (countActive_update_done s.phase i (oracle i)) hle
  | deadline hdl =>
    rw [activeCount_deadlineState]
    exact Nat.zero_le C

lemma activeCount_init {n : Nat} : activeCount (initState n) = 0 := by
  have hempty :
      (Finset.univ.filter fun j : Fin n => ((initState n).phase j).isActive = true) = ∅ :=
    Finset.filter_false_of_mem fun j _ => by simp [initState, Phase.isActive]
  simp [activeCount, countActive, hempty]

lemma reach_activeCount_le {n : Nat} {oracle : Fin n → Outcome} {C : Nat} {dl : Bool}
    {s : RunState n} (h : Reach oracle C dl s) : activeCount s ≤ C := by
  unfold Reach at h
  induction h with
  | refl => rw [activeCount_init]; exact Nat.zero_le C
  | tail _ hstep ih => exact activeCount_le_of_step hstep ih

lemma emittedInv_step {n : Nat} {oracle : Fin n → Outcome} {C : Nat} {dl : Bool}
    {s s' : RunState n} (h : Step oracle C dl s s') (hinv : EmittedInv s) :
    EmittedInv s' := by
  obtain ⟨hnd, hmem⟩ := hinv
  cases h with
  | start i hp hc =>
    refine ⟨hnd, fun j => ?_⟩
    by_cases hj : j = i
    · subst hj
      simp [Function.update_same, Phase.isDone, hmem j, hp]
    · show j ∈ s.emitted.map Prod.fst ↔ (Function.update s.phase i Phase.active j).isDone = true
      rw [Function.update_noteq hj]
      exact hmem j
  | finish i ha =>
    have hni : i ∉ s.emitted.map Prod.fst := by
      rw [hmem i, ha]
      simp [Phase.isDone]
    constructor
    · simpa [List.nodup_append, hnd] using hni
    · intro j
      by_cases hj : j = i
      · subst hj
        simp [Function.update_same, Phase.isDone]
      · show j ∈ (s.emitted ++ [(i, oracle i)]).map Prod.fst
            ↔ (Function.update s.phase i (Phase.done (oracle i)) j).isDone = true
        rw [Function.update_noteq hj]
        simp [hj, hmem j]
  | deadline hdl =>
    have hmap : (((withoutOutcome s).map fun i => (i, deadlineOutcome (s.phase i))).map
        Prod.fst) = withoutOutcome s := by
      rw [List.map_map]
      exact List.map_id'' (fun _ => rfl) _
    have hwo : ∀ j : Fin n, j ∈ withoutOutcome s ↔ (s.phase j).isDone = false := by
      intro j
      simp [withoutOutcome, List.mem_filter]
    constructor
    · show ((s.emitted ++ (withoutOutcome s).map fun i =>
          (i, deadlineOutcome (s.phase i))).map Prod.fst).Nodup
      rw [List.map_append, hmap, List.nodup_append]
      refine ⟨hnd, (List.nodup_finRange n).filter _, fun j hj₁ hj₂ => ?_⟩
      have h₁ : (s.phase j).isDone = true := (hmem j).mp hj₁
      have h₂ : (s.phase j).isDone = false := (hwo j).mp hj₂
      rw [h₁] at h₂
      simp at h₂
    · intro j
      show j ∈ ((s.emitted ++ (withoutOutcome s).map fun i =>
          (i, deadlineOutcome (s.phase i))).map Prod.fst)
          ↔ (Phase.done (deadlineOutcome (s.phase j))).isDone = true
      rw [List.map_append, hmap]
      simp only [List.mem_append, hmem j, hwo j, Phase.isDone]
      cases hdj : (s.phase j).isDone <;> simp [hdj]

lemma reach_emittedInv {n : Nat} {oracle : Fin n → Outcome} {C : Nat} {dl : Bool}
    {s : RunState n} (h : Reach oracle C dl s) : EmittedInv s := by
  unfold Reach at h
  induction h with
  | refl => exact ⟨List.nodup_nil, fun i => by simp [initState, Phase.isDone]⟩
  | tail _ hstep ih => exact emittedInv_step hstep ih

lemma oracleInv_step {n : Nat} {oracle : Fin n → Outcome} {C : Nat}
    {s s' : RunState n} (h : Step oracle C false s s') (hinv : OracleInv oracle s) :
    OracleInv oracle s' := by
  cases h with
  | start i hp hc => exact hinv
  | finish i ha =>
    intro p hp'
    rcases List.mem_append.mp hp' with h₁ | h₂
    · exact hinv p h₁
    · rw [List.mem_singleton.mp h₂]
  | deadline hdl => exact absurd hdl (by simp)

lemma reach_oracleInv {n : Nat} {oracle : Fin n → Outcome} {C : Nat}
    {s : RunState n} (h : Reach oracle C false s) : OracleInv oracle s := by
  unfold Reach at h
  induction h with
  | refl => intro p hp; simp [initState] at hp
  | tail _ hstep ih => exact oracleInv_step hstep ih

lemma complete_emitted {n : Nat} {oracle : Fin n → Outcome} {C : Nat} {dl : Bool}
    {s : RunState n} (h : Reach oracle C dl s)
    (hdone : ∀ i, (s.phase i).isDone = true) :
    s.emitted.length = n ∧ ∀ i : Fin n, (s.emitted.map Prod.fst).count i = 1 := by
  obtain ⟨hnd, hmem⟩ := reach_emittedInv h
  have hall : ∀ i : Fin n, i ∈ s.emitted.map Prod.fst := fun i => (hmem i).mpr (hdone i)
  constructor
  · have h₁ : (s.emitted.map Prod.fst).toFinset = (Finset.univ : Finset (Fin n)) :=
      Finset.eq_univ_iff_forall.mpr fun i => List.mem_toFinset.mpr (hall i)
    have h₂ := List.toFinset_card_of_nodup hnd
    rw [h₁, Finset.card_univ, Fintype.card_fin, List.length_map] at h₂
    exact h₂.symm
  · intro i
    exact List.count_eq_one_of_mem hnd (hall i)

lemma mem_emitted_iff_oracle {n : Nat} {oracle : Fin n → Outcome} {C : Nat}
    {s : RunState n} (h : Reach oracle C false s)
    (hdone : ∀ i, (s.phase i).isDone = true) (i : Fin n) (o : Outcome) :
    (i, o) ∈ s.emitted ↔ o = oracle i := by
  obtain ⟨hnd, hmem⟩ := reach_emittedInv h
  have horacle := reach_oracleInv h
  constructor
  · intro hio
    exact horacle (i, o) hio
  · intro ho
    have hi : i ∈ s.emitted.map Prod.fst := (hmem i).mpr (hdone i)
    obtain ⟨⟨a, b⟩, hp, hfst⟩ := List.mem_map.mp hi
    simp only at hfst
    subst hfst
    have hb : b = oracle a := horacle (a, b) hp
    rw [ho, ← hb]
    exact hp

lemma reach_dA2 : Reach demoOracle2 2 false dA2 :=
  Relation.ReflTransGen.tail
    (Relation.ReflTransGen.tail Relation.ReflTransGen.refl
      (Step.start (initState 2) 0 rfl (by decide)))
    (Step.start dA1 1 (by decide) (by decide))

lemma reach_dA4 : Reach demoOracle2 2 false dA4 :=
  Relation.ReflTransGen.tail
    (Relation.ReflTransGen.tail reach_dA2 (Step.finish dA2 0 (by decide)))
    (Step.finish dA3 1 (by decide))

lemma reach_dB4 : Reach demoOracle2 2 false dB4 :=
  Relation.ReflTransGen.tail
    (Relation.ReflTransGen.tail reach_dA2 (Step.finish dA2 1 (by decide)))
    (Step.finish dB3 0 (by decide))

lemma reach_true_dA1 : Reach demoOracle2 2 true dA1 :=
  Relation.ReflTransGen.tail Relation.ReflTransGen.refl
    (Step.start (initState 2) 0 rfl (by decide))

/-- C1: for every run over `n` Targets and every interleaving, once every
Target is in a terminal phase the completion stream holds exactly `n`
(Target, Outcome) pairs: one Outcome per Target, no Target duplicated, no
Target omitted. -/
theorem run_produces_one_outcome_per_target {n : Nat} (oracle : Fin n → Outcome)
    (C : Nat) (dl : Bool) (s : RunState n) (h : Reach oracle C dl s)
    (hdone : ∀ i, (s.phase i).isDone = true) :
    s.emitted.length = n ∧ ∀ i : Fin n, (s.emitted.map Prod.fst).count i = 1 :=
  complete_emitted h hdone

/-- Witness for C1: a concrete completed two-host run emits exactly two
pairs, with host 0 appearing exactly once. -/
theorem run_produces_one_outcome_per_target_witness :
    dA4.emitted.length = 2 ∧ (dA4.emitted.map Prod.fst).count 0 = 1 := by
  have h := run_produces_one_outcome_per_target demoOracle2 2 false dA4
    reach_dA4 (by decide)
  exact ⟨h.1, h.2 0⟩

/-- C2: in every reachable state of a run with concurrency limit `C`, for
every number of Targets and every interleaving, the instantaneous number of
hosts in the connect/authenticate/execute phase is at most `C`. -/
theorem inflight_at_most_limit {n : Nat} (oracle : Fin n → Outcome) (C : Nat)
    (dl : Bool) (s : RunState n) (h : Reach oracle C dl s) :
    activeCount s ≤ C :=
  reach_activeCount_le h

/-- Witness for C2: the concrete two-host state with both hosts admitted
respects the limit 2. -/
theorem inflight_at_most_limit_witness : activeCount dA2 ≤ 2 :=
  inflight_at_most_limit demoOracle2 2 false dA2 reach_dA2

/-- C4: when the global run deadline elapses in aggregate mode, every
Target ends in a terminal phase: a still-queued Target is assigned
`Cancelled`, a started-but-unfinished Target is assigned `TimedOut`, an
already-finished Target keeps its Outcome, and the completion stream then
holds exactly one Outcome per Target. -/
theorem deadline_assigns_every_missing_outcome {n : Nat} (oracle : Fin n → Outcome)
    (C : Nat) (s : RunState n) (h : Reach oracle C true s) :
    (∀ i, ((deadlineState s).phase i).isDone = true) ∧
    (∀ i, s.phase i = .pending → (deadlineState s).phase i = .done .cancelled) ∧
    (∀ i, s.phase i = .active → (deadlineState s).phase i = .done .timedOut) ∧
    (∀ i o, s.phase i = .done o → (deadlineState s).phase i = .done o) ∧
    (deadlineState s).emitted.length = n ∧
    (∀ i : Fin n, ((deadlineState s).emitted.map Prod.fst).count i = 1) := by
  have hreach : Reach oracle C true (deadlineState s) :=
    Relation.ReflTransGen.tail h (Step.deadline s rfl)
  have hdone : ∀ i, ((deadlineState s).phase i).isDone = true := fun i => by
    simp [deadlineState, Phase.isDone]
  obtain ⟨hlen, hcount⟩ := complete_emitted hreach hdone
  refine ⟨hdone, ?_, ?_, ?_, hlen, hcount⟩
  · intro i hp; simp [deadlineState, hp, deadlineOutcome]
  · intro i hp; simp [deadlineState, hp, deadlineOutcome]
  · intro i o hp; simp [deadlineState, hp, deadlineOutcome]

/-- Witness for C4: in the concrete two-host state with host 0 active and
host 1 still queued, the deadline assigns `TimedOut` to host 0 and
`Cancelled` to host 1 and completes the stream. -/
theorem deadline_assigns_every_missing_outcome_witness :
    (deadlineState dA1).phase 1 = .done .cancelled ∧
    (deadlineState dA1).phase 0 = .done .timedOut ∧
    (deadlineState dA1).emitted.length = 2 := by
  have h := deadline_assigns_every_missing_outcome demoOracle2 2 dA1 reach_true_dA1
  exact ⟨h.2.1 1 (by decide), h.2.2.1 0 (by decide), h.2.2.2.2.1⟩

/-- C7: with a deterministic transport (a fixed per-Target outcome oracle),
any two completed runs over the same Targets and Config contain exactly the
same (Target, Outcome) pairs, for every pair of task interleavings; only the
order of the completion stream may differ. -/
theorem aggregate_outcome_deterministic {n : Nat} (oracle : Fin n → Outcome)
    (C : Nat) (s₁ s₂ : RunState n)
    (h₁ : Reach oracle C false s₁) (h₂ : Reach oracle C false s₂)
    (hc₁ : ∀ i, (s₁.phase i).isDone = true) (hc₂ : ∀ i, (s₂.phase i).isDone = true) :
    ∀ (i : Fin n) (o : Outcome), (i, o) ∈ s₁.emitted ↔ (i, o) ∈ s₂.emitted := by
  intro i o
  rw [mem_emitted_iff_oracle h₁ hc₁ i o, mem_emitted_iff_oracle h₂ hc₂ i o]

/-- Witness for C7: two concrete two-host runs completed in opposite orders
contain the same pair for host 0. -/
theorem aggregate_outcome_deterministic_witness :
    (((0 : Fin 2), Outcome.success 0 "hi\n" "") ∈ dA4.emitted ↔
      ((0 : Fin 2), Outcome.success 0 "hi\n" "") ∈ dB4.emitted) :=
  aggregate_outcome_deterministic demoOracle2 2 dA4 dB4 reach_dA4 reach_dB4
    (by decide) (by decide) 0 (Outcome.success 0 "hi\n" "")

end Massh
